import Mathlib

/-!
The session layer of go-session: a shallow embedding of `src/session.go`.

Conventions of the embedding.

* A Go `string` is a sequence of bytes.  It is embedded as a Lean `String` in
  which every `Char` stands for one byte (code points `0 .. 255`), so that
  `len(s)` is `s.length`.
* A Go `error` is a value of `Error`; the `nil` error is `none`.
* A Go pointer that may be `nil` is an `Option`; the objects behind the
  pointers stored in the store index are never mutated by `session.go`, so a
  pointer is embedded as the value it points to.
* `time.Now()` and `Random(32, RuleKindAll)` read the environment: their
  results are explicit arguments of the functions that call them.  A
  `time.Time` is embedded as its instant; the zone of the process, which only
  `AddDate` consults, is an argument of its own.
* A run that panics (nil dereference, failed type assertion) is `none`.
* Locks are not modelled: every function is embedded as one sequential run.
-/

namespace GoSession

/-! ## Errors -/

/-- Go `error` values that reach the callers of `session.go`. -/
inductive Error where
  /-- Package variable `ErrorKeyNotExist`. -/
  | ErrorKeyNotExist
  /-- Package variable `ErrorKeyFormat`. -/
  | ErrorKeyFormat
  /-- Value `url.EscapeError(s)` of `net/url`. -/
  | EscapeError (s : String)
  /-- Value `http.ErrNoCookie` of `net/http`. -/
  | ErrNoCookie
  /-- Value `errors.New(msg)`; also any error made by a storage engine. -/
  | New (msg : String)
  deriving DecidableEq, Repr

/-! ## `net/url`: query escaping -/

/-- Go `ishex` of `net/url`. -/
def ishex (c : Char) : Bool :=
  ('0' ≤ c && c ≤ '9') || ('a' ≤ c && c ≤ 'f') || ('A' ≤ c && c ≤ 'F')

/-- Go `unhex` of `net/url`. -/
def unhex (c : Char) : Nat :=
  if '0' ≤ c && c ≤ '9' then c.toNat - '0'.toNat
  else if 'a' ≤ c && c ≤ 'f' then c.toNat - 'a'.toNat + 10
  else if 'A' ≤ c && c ≤ 'F' then c.toNat - 'A'.toNat + 10
  else 0

/-- First pass of Go `unescape`: the text of the first malformed escape
(`s[i:]` cut to three bytes), if there is one. -/
def firstBadEscape : List Char → Option (List Char)
  | [] => none
  | c :: rest =>
    if c = '%' then
      match rest with
      | a :: b :: rest2 =>
        if ishex a && ishex b then firstBadEscape rest2 else some (c :: rest.take 2)
      | _ => some (c :: rest.take 2)
    else firstBadEscape rest

/-- Second pass of Go `unescape` in mode `encodeQueryComponent`: `%XY` becomes
the byte `XY`, `+` becomes a space, any other byte is kept. -/
def decodeEscapes : List Char → List Char
  | [] => []
  | c :: rest =>
    if c = '%' then
      match rest with
      | a :: b :: rest2 => Char.ofNat (unhex a * 16 + unhex b) :: decodeEscapes rest2
      | _ => []
    else if c = '+' then ' ' :: decodeEscapes rest
    else c :: decodeEscapes rest

/-- Go `url.QueryUnescape`. -/
def QueryUnescape (s : String) : String × Option Error :=
  match firstBadEscape s.data with
  | some bad => ("", some (.EscapeError (String.mk bad)))
  | none => (String.mk (decodeEscapes s.data), none)

/-- Go `shouldEscape(c, encodeQueryComponent)` of `net/url`. -/
def shouldEscape (c : Char) : Bool :=
  if ('a' ≤ c && c ≤ 'z') || ('A' ≤ c && c ≤ 'Z') || ('0' ≤ c && c ≤ '9') then false
  else if c = '-' || c = '_' || c = '.' || c = '~' then false
  else true

/-- Go constant `upperhex` of `net/url`, indexed by a nibble. -/
def upperhex (n : Nat) : Char :=
  "0123456789ABCDEF".data.getD n '0'

/-- Body of Go `escape` in mode `encodeQueryComponent`. -/
def escapeBytes : List Char → List Char
  | [] => []
  | c :: rest =>
    if shouldEscape c then
      if c = ' ' then '+' :: escapeBytes rest
      else '%' :: upperhex (c.toNat / 16 % 16) :: upperhex (c.toNat % 16) :: escapeBytes rest
    else c :: escapeBytes rest

/-- Go `url.QueryEscape`. -/
def QueryEscape (s : String) : String :=
  String.mk (escapeBytes s.data)

/-! ## `time` -/

/-- Go `time.Duration`: a signed 64-bit count of nanoseconds. -/
abbrev Duration := Int

/-- Two's-complement wrap of an integer into the `int64` range. -/
def wrapInt64 (x : Int) : Int :=
  (x + 2 ^ 63) % 2 ^ 64 - 2 ^ 63

/-- Go constant `time.Second`. -/
def Second : Duration := 1000000000

/-- Go product `a * b` of two `time.Duration` values. -/
def Duration.mul (a b : Duration) : Duration :=
  wrapInt64 (a * b)

/-- Go `time.Time`: an instant, as nanoseconds since the Unix epoch. -/
structure Time where
  unixNano : Int
  deriving DecidableEq, Repr

/-- Go `Time.Add`. -/
def Time.Add (t : Time) (d : Duration) : Time :=
  ⟨t.unixNano + d⟩

/-- Go `time.Location`: the offset (seconds east of UTC) in force before the
first transition, and the transitions `(when, offset)` in ascending order of
`when` (Unix seconds), each giving the offset in force from `when` on. -/
structure Location where
  offset0 : Int
  tx : List (Int × Int)
  deriving DecidableEq, Repr

/-- Go `time.UTC`. -/
def UTC : Location := ⟨0, []⟩

/-- Scan of the transitions for Go `Location.lookup`: `offset` is in force
since `start`. -/
def lookupFrom (offset start : Int) : List (Int × Int) → Int → Int × Int × Int
  | [], _ => (offset, start, 2 ^ 63 - 1)
  | (when, off) :: rest, sec =>
    if sec < when then (offset, start, when) else lookupFrom off when rest sec

/-- Go `Location.lookup`: the offset in force at the Unix second `sec`, with
the bounds `start ≤ sec < stop` of the period in which it is in force (`alpha`
and `omega` of Go are `-2^63` and `2^63 - 1`). -/
def Location.lookup (l : Location) (sec : Int) : Int × Int × Int :=
  lookupFrom l.offset0 (-(2 ^ 63)) l.tx sec

/-- The offsets that a zone ever has in force. -/
def Location.offsets (l : Location) : List Int :=
  l.offset0 :: l.tx.map (fun e => e.2)

/-- Days from 1970-01-01 to January 1st of `year` (proleptic Gregorian). -/
def daysBeforeYear (year : Int) : Int :=
  let y := year - 1
  365 * (year - 1970) + (y / 4 - y / 100 + y / 400) - (1969 / 4 - 1969 / 100 + 1969 / 400)

/-- Go `isLeap`. -/
def isLeap (year : Int) : Bool :=
  year % 4 = 0 && (year % 100 ≠ 0 || year % 400 = 0)

/-- Go table `daysBefore`: days of a non-leap year before month `m` (`0` is January). -/
def daysBefore (m : Nat) : Int :=
  [0, 31, 59, 90, 120, 151, 181, 212, 243, 273, 304, 334].getD m 365

/-- Day count of Go `time.Date`: days from 1970-01-01 to the given civil date;
a month out of range is normalised into the year, a day out of range counts on
linearly. -/
def daysFromCivil (year month day : Int) : Int :=
  let m := month - 1
  let year := year + m / 12
  let m := (m % 12).toNat
  daysBeforeYear year + daysBefore m + (if isLeap year && 2 ≤ m then 1 else 0) + (day - 1)

/-- Go `time.Date`: the instant at which the wall clock of `loc` shows the
given fields.  As in the current Go releases, the fields are summed as if in
UTC, then the zone offset found for that sum is subtracted; when the result
falls outside the period of that offset, the offset in force at the result is
taken instead. -/
def Date (year month day hour min sec nsec : Int) (loc : Location) : Time :=
  let unix := daysFromCivil year month day * 86400 + hour * 3600 + min * 60 + sec
    + nsec / 1000000000
  let nsec := nsec % 1000000000
  let (offset, start, stop) := loc.lookup unix
  let offset :=
    if offset ≠ 0 ∧ (unix - offset < start ∨ stop ≤ unix - offset) then
      (loc.lookup (unix - offset)).1
    else offset
  ⟨(unix - offset) * 1000000000 + nsec⟩

/-- Year that contains the day `days` days after 1970-01-01: an estimate from
the mean year length, moved by one year when it misses. -/
def yearOfDay (days : Int) : Int :=
  let guess := 1970 + 400 * days / 146097
  if days < daysBeforeYear guess then guess - 1
  else if daysBeforeYear (guess + 1) ≤ days then guess + 1
  else guess

/-- Year, month and day of the day `days` days after 1970-01-01.  From March
on, the month and the day come from the count `r` of days since March 1st. -/
def civilFromDays (days : Int) : Int × Int × Int :=
  let year := yearOfDay days
  let yday := days - daysBeforeYear year
  let a : Int := if isLeap year then 1 else 0
  if yday < 31 then (year, 1, yday + 1)
  else if yday < 59 + a then (year, 2, yday - 30)
  else
    let r := yday - (59 + a)
    let mp := (5 * r + 2) / 153
    (year, mp + 3, r - (153 * mp + 2) / 5 + 1)

/-- Go `Time.abs`, in seconds since the Unix epoch: the reading of the wall
clock of `loc` at the instant `t`. -/
def Time.abs (t : Time) (loc : Location) : Int :=
  let sec := t.unixNano / 1000000000
  sec + (loc.lookup sec).1

/-- Go `Time.Date` of an instant whose location is `loc`. -/
def Time.Date (t : Time) (loc : Location) : Int × Int × Int :=
  civilFromDays (t.abs loc / 86400)

/-- Go `Time.Clock` of an instant whose location is `loc`. -/
def Time.Clock (t : Time) (loc : Location) : Int × Int × Int :=
  let secs := t.abs loc % 86400
  (secs / 3600, secs / 60 % 60, secs % 60)

/-- Go `Time.AddDate` of an instant whose location is `loc`. -/
def Time.AddDate (t : Time) (loc : Location) (years months days : Int) : Time :=
  let (year, month, day) := t.Date loc
  let (hour, min, sec) := t.Clock loc
  GoSession.Date (year + years) (month + months) (day + days) hour min sec
    (t.unixNano % 1000000000) loc

/-! ## `net/http`: cookies, requests and responses -/

/-- Go `http.Cookie`, with the fields that `session.go` sets. -/
structure Cookie where
  Name : String
  Value : String
  Path : String
  Domain : String
  Expires : Time
  MaxAge : Int
  Secure : Bool
  HttpOnly : Bool
  deriving DecidableEq, Repr

/-- Go `http.ResponseWriter`, as far as `session.go` drives it: the cookies
for which a `Set-Cookie` header line was added to the response, oldest first.
The text of a line is `Cookie.String()` of `net/http`. -/
structure ResponseWriter where
  cookies : List Cookie
  deriving DecidableEq, Repr

/-- Go `httpguts.IsTokenRune`: the bytes allowed in an HTTP token. -/
def isTokenRune (c : Char) : Bool :=
  ('a' ≤ c && c ≤ 'z') || ('A' ≤ c && c ≤ 'Z') || ('0' ≤ c && c ≤ '9') ||
    "!#$%&*+-.^_|~".data.contains c || c = Char.ofNat 39 || c = Char.ofNat 96

/-- Go `isCookieNameValid` of `net/http`: a non-empty HTTP token. -/
def isCookieNameValid (raw : String) : Bool :=
  raw ≠ "" && raw.data.all isTokenRune

/-- Go `http.SetCookie`: adds the header line `cookie.String()` unless that
text is empty.  `Cookie.String()` is empty exactly when the name of the cookie
is not valid, so such a cookie is dropped. -/
def SetCookie (w : ResponseWriter) (cookie : Cookie) : ResponseWriter :=
  if isCookieNameValid cookie.Name then ⟨w.cookies ++ [cookie]⟩ else w

/-- Go `*http.Request`, as far as `session.go` reads it: the cookies sent by
the client, as `(name, value)` pairs in header order. -/
structure Request where
  cookies : List (String × String)
  deriving DecidableEq, Repr

/-- Go `Request.Cookie`: the first cookie called `name`, with a `nil` error;
or a `nil` cookie with the error `http.ErrNoCookie`, embedded as `none`.  Of
the returned `*http.Cookie` only `Value` is read by `session.go`, so the
cookie is embedded as that string. -/
def Request.Cookie (r : Request) (name : String) : Option String :=
  (r.cookies.find? (fun c => c.1 == name)).map (fun c => c.2)

/-! ## Configuration -/

/-- Go `StoreType`: the two engine kinds that `Builder` knows, and any other
value of the underlying integer type. -/
inductive StoreType where
  | Memory
  | Redis
  | other (code : Nat)
  deriving DecidableEq, Repr

/-- Go `Config`, with the fields that `session.go` reads or writes. -/
structure Config where
  CookieName : String
  Path : String
  Domain : String
  MaxAge : Int
  HttpOnly : Bool
  Secure : Bool
  _st : StoreType
  deriving DecidableEq, Repr

/-- Modelled from the spec: the constant `DefaultMaxAge` is declared outside
`session.go`; section 6 of the spec fixes the floor at 1800 seconds, and the
message of `Builder` calls it 30 minutes. -/
def DefaultMaxAge : Int := 1800

/-! ## Session objects -/

/-- Go `MemorySession` (the mutex `Safe` is not modelled).  `Data` is the Go
map `map[string]interface{}` as an association list; `α` is the type of the
values stored behind `interface{}`. -/
structure MemorySession (α : Type) where
  ID : String
  Expires : Time
  Data : List (String × α)
  deriving DecidableEq, Repr

/-- Go `RedisSession` (the mutex `Safe` is not modelled). -/
structure RedisSession where
  ID : String
  Expires : Time
  deriving DecidableEq, Repr

/-- Go `newRSession`; `now` is the reading of `time.Now()`. -/
def newRSession (id : String) (maxAge : Int) (now : Time) : RedisSession :=
  { ID := id
    Expires := now.Add (Duration.mul maxAge Second) }

/-- Go `newMSessionItem`; `now` is the reading of `time.Now()`. -/
def newMSessionItem {α : Type} (id : String) (maxAge : Int) (now : Time) : MemorySession α :=
  { Data := []
    ID := id
    Expires := now.Add (Duration.mul maxAge Second) }

/-! ## The storage engine behind `_Store` -/

/-- The bag `cv` that every handle method wraps in a `context.Context`: a Go
map with an entry under `contextValueID`, and optional entries under
`contextValueKey` and `contextValueData`. -/
structure ContextValue (α : Type) where
  ID : String
  Key : Option String
  Data : Option α
  deriving DecidableEq, Repr

/-- Go `[]byte`; a `nil` slice is `none`. -/
abbrev Bytes := Option (List Nat)

/-- Modelled from the spec: the interface `Store` is declared outside
`session.go`.  Section 4.2 of the spec gives its four operations, each taking
the request context; `Reader` returns `(bytes, error)` and `Writer`, `Remove`
and `Clean` return an `error`.  An engine works on a state of type `σ`, which
every operation may change. -/
structure Store (σ α : Type) where
  Reader : ContextValue α → σ → (Bytes × Option Error) × σ
  Writer : ContextValue α → σ → Option Error × σ
  Remove : ContextValue α → σ → Option Error × σ
  Clean : ContextValue α → σ → Option Error × σ

/-! ## Handle methods

In the methods below `_Store` is the method table of the engine held by the
package variable `_Store`, `st` is the state of that engine before the call,
and `_Cfg` is the configuration that the package variable `_Cfg` points to.
Each method returns its Go results together with the engine state after the
call. -/

section Handles

variable {σ α : Type}

/-- Go `(*RedisSession).Get`. -/
def RedisSession.Get (_Store : Store σ α) (rs : RedisSession) (key : String) (st : σ) :
    (Bytes × Option Error) × σ :=
  if key = "" ∨ key.length ≤ 0 then
    ((none, some .ErrorKeyNotExist), st)
  else
    let cv : ContextValue α := { ID := rs.ID, Key := some key, Data := none }
    let ((b, err), st1) := _Store.Reader cv st
    if err ≠ none then
      ((none, err), st1)
    else
      ((b, none), st1)

/-- Go `(*RedisSession).Set`. -/
def RedisSession.Set (_Store : Store σ α) (rs : RedisSession) (key : String) (data : α) (st : σ) :
    Option Error × σ :=
  if key = "" ∨ key.length ≤ 0 then
    (some .ErrorKeyFormat, st)
  else
    let cv : ContextValue α := { ID := rs.ID, Key := some key, Data := some data }
    _Store.Writer cv st

/-- Go `(*RedisSession).Del`. -/
def RedisSession.Del (_Store : Store σ α) (rs : RedisSession) (key : String) (st : σ) :
    Option Error × σ :=
  if key = "" ∨ key.length ≤ 0 then
    (some .ErrorKeyFormat, st)
  else
    let cv : ContextValue α := { ID := rs.ID, Key := some key, Data := none }
    let st1 := (_Store.Remove cv st).2
    (none, st1)

/-- Go `(*RedisSession).Clean`; `now` is the instant read by `time.Now()` and
`loc` the zone `time.Local` of the process, which `time.Now()` gives to its
result. -/
def RedisSession.Clean (_Store : Store σ α) (_Cfg : Config) (rs : RedisSession)
    (w : ResponseWriter) (now : Time) (loc : Location) (st : σ) : σ × ResponseWriter :=
  let cv : ContextValue α := { ID := rs.ID, Key := none, Data := none }
  let st1 := (_Store.Clean cv st).2
  let cookie : Cookie :=
    { Name := _Cfg.CookieName
      Value := ""
      Path := _Cfg.Path
      Domain := _Cfg.Domain
      Secure := _Cfg.Secure
      MaxAge := -1
      Expires := now.AddDate loc (-1) 0 0
      HttpOnly := _Cfg.HttpOnly }
  (st1, SetCookie w cookie)

/-- Go `(*MemorySession).Get`. -/
def MemorySession.Get (_Store : Store σ α) (ms : MemorySession α) (key : String) (st : σ) :
    (Bytes × Option Error) × σ :=
  if key = "" ∨ key.length ≤ 0 then
    ((none, some .ErrorKeyNotExist), st)
  else
    let cv : ContextValue α := { ID := ms.ID, Key := some key, Data := none }
    let ((b, err), st1) := _Store.Reader cv st
    if err ≠ none then
      ((none, err), st1)
    else
      ((b, none), st1)

/-- Go `(*MemorySession).Set`. -/
def MemorySession.Set (_Store : Store σ α) (ms : MemorySession α) (key : String) (data : α)
    (st : σ) : Option Error × σ :=
  if key = "" ∨ key.length ≤ 0 then
    (some .ErrorKeyFormat, st)
  else
    let cv : ContextValue α := { ID := ms.ID, Key := some key, Data := some data }
    _Store.Writer cv st

/-- Go `(*MemorySession).Del`. -/
def MemorySession.Del (_Store : Store σ α) (ms : MemorySession α) (key : String) (st : σ) :
    Option Error × σ :=
  if key = "" ∨ key.length ≤ 0 then
    (some .ErrorKeyFormat, st)
  else
    let cv : ContextValue α := { ID := ms.ID, Key := some key, Data := none }
    let st1 := (_Store.Remove cv st).2
    (none, st1)

/-- Go `(*MemorySession).Clean`; `now` is the instant read by `time.Now()` and
`loc` the zone `time.Local` of the process, which `time.Now()` gives to its
result. -/
def MemorySession.Clean (_Store : Store σ α) (_Cfg : Config) (ms : MemorySession α)
    (w : ResponseWriter) (now : Time) (loc : Location) (st : σ) : σ × ResponseWriter :=
  let cv : ContextValue α := { ID := ms.ID, Key := none, Data := none }
  let st1 := (_Store.Clean cv st).2
  let cookie : Cookie :=
    { Name := _Cfg.CookieName
      Value := ""
      Path := _Cfg.Path
      Domain := _Cfg.Domain
      Secure := _Cfg.Secure
      MaxAge := -1
      Expires := now.AddDate loc (-1) 0 0
      HttpOnly := _Cfg.HttpOnly }
  (st1, SetCookie w cookie)

end Handles

/-! ## Package state, `newCookie`, `Builder` and `Ctx` -/

/-- Go `MemoryStore`, as `session.go` uses it: the store index `values` of type
`map[string]*MemorySession`.  A key is absent exactly when its lookup gives
the `nil` pointer, `none`. -/
structure MemoryStore (α : Type) where
  values : String → Option (MemorySession α)

/-- Go map assignment `values[sid] = item`. -/
def MemoryStore.assign {α : Type} (m : MemoryStore α) (sid : String) (item : MemorySession α) :
    MemoryStore α :=
  ⟨fun k => if k = sid then some item else m.values k⟩

/-- Modelled from the spec: `newMemoryStore` is defined outside `session.go`;
it builds the Local Map Engine of section 4.2.1, whose index starts empty. -/
def newMemoryStore {α : Type} : MemoryStore α :=
  ⟨fun _ => none⟩

/-- Go `RedisStore`; `session.go` never looks inside it. -/
structure RedisStore where
  client : Nat
  deriving DecidableEq, Repr

/-- The dynamic value of the package variable `_Store`: a `*MemoryStore` or a
`*RedisStore`. -/
inductive StoreImpl (α : Type) where
  | memory (m : MemoryStore α)
  | redis (r : RedisStore)

/-- The package variables `_Cfg` and `_Store`; both are `nil` until `Builder`
runs. -/
structure Globals (α : Type) where
  _Cfg : Option Config
  _Store : Option (StoreImpl α)

/-- A value of the Go interface `Session` that is not the `nil` interface: a
`*MemorySession`, which may be the `nil` pointer, or a `*RedisSession`. -/
inductive Session (α : Type) where
  | memory (ms : Option (MemorySession α))
  | redis (rs : RedisSession)
  deriving DecidableEq, Repr

/-- Go `newCookie`.  `rnd` is the result of `Random(32, RuleKindAll)`; `now1`
and `now2` are the readings of `time.Now()` taken for the cookie and for the
session object.  The parameter `cookie` is overwritten before it is read. -/
def newCookie {α : Type} (g : Globals α) (w : ResponseWriter) (_cookie : Option String)
    (rnd : String) (now1 now2 : Time) : Option (Session α × Globals α × ResponseWriter) :=
  match g._Cfg with
  | none => none
  | some cfg =>
    let sid := rnd
    let cookie : Cookie :=
      { Name := cfg.CookieName
        Value := QueryEscape sid
        Path := cfg.Path
        Domain := cfg.Domain
        HttpOnly := cfg.HttpOnly
        Secure := cfg.Secure
        MaxAge := cfg.MaxAge
        Expires := now1.Add cfg.MaxAge }
    let w1 := SetCookie w cookie
    if cfg._st = .Memory then
      let item : MemorySession α := newMSessionItem sid cfg.MaxAge now2
      match g._Store with
      | some (.memory m) =>
        some (.memory (some item), { g with _Store := some (.memory (m.assign sid item)) }, w1)
      | _ => none
    else
      some (.redis (newRSession sid cfg.MaxAge now2), g, w1)

/-- Go `Builder`.  `newRedis` is the pair returned by `newRedisStore()`. -/
def Builder {α : Type} (store : StoreType) (conf : Config) (newRedis : RedisStore × Option Error)
    (g : Globals α) : Option Error × Globals α :=
  if conf.MaxAge < DefaultMaxAge then
    (some (.New "session maxAge no less than 30min"), g)
  else
    let g1 : Globals α := { g with _Cfg := some conf }
    match store with
    | .Memory =>
      (none, { _Store := some (.memory newMemoryStore), _Cfg := some { conf with _st := .Memory } })
    | .Redis =>
      let (redisStore, err) := newRedis
      if err ≠ none then
        (err, g1)
      else
        (none, { _Store := some (.redis redisStore), _Cfg := some { conf with _st := .Redis } })
    | .other _ =>
      (some (.New "build session error, not implement type store"), g1)

/-- Go `Ctx`.  `rnd`, `now1` and `now2` are the environment readings of a
`newCookie` call; `now1` is also the reading of `time.Now()` taken by
`newRSession` on the last line. -/
def Ctx {α : Type} (g : Globals α) (writer : ResponseWriter) (request : Request)
    (rnd : String) (now1 now2 : Time) :
    Option ((Option (Session α) × Option Error) × Globals α × ResponseWriter) :=
  match g._Cfg with
  | none => none
  | some cfg =>
    let cookie := request.Cookie cfg.CookieName
    if cfg._st = .Memory then
      match cookie with
      | none =>
        (newCookie g writer cookie rnd now1 now2).map
          (fun (item, g1, w1) => ((some item, none), g1, w1))
      | some value =>
        if value.length ≤ 0 then
          (newCookie g writer cookie rnd now1 now2).map
            (fun (item, g1, w1) => ((some item, none), g1, w1))
        else
          let (sid, err) := QueryUnescape value
          if err ≠ none then
            some ((none, err), g, writer)
          else
            match g._Store with
            | some (.memory m) =>
              let session := m.values sid
              if session.isNone then
                match newCookie g writer cookie rnd now1 now2 with
                | none => none
                | some (item, g1, w1) =>
                  match item, g1._Store with
                  | .memory (some ms), some (.memory m1) =>
                    some ((some item, none), { g1 with _Store := some (.memory (m1.assign sid ms)) }, w1)
                  | _, _ => none
              else
                some ((some (.memory (m.values value)), none), g, writer)
            | _ => none
    else
      match cookie with
      | none =>
        (newCookie g writer cookie rnd now1 now2).map
          (fun (rs, g1, w1) => ((some rs, none), g1, w1))
      | some value =>
        if value.length ≤ 0 then
          (newCookie g writer cookie rnd now1 now2).map
            (fun (rs, g1, w1) => ((some rs, none), g1, w1))
        else
          let (sid, err) := QueryUnescape value
          if err ≠ none then
            some ((none, err), g, writer)
          else
            some ((some (.redis (newRSession sid cfg.MaxAge now1)), none), g, writer)

/-! ## Fixtures: concrete engines and configurations -/

/-- A table engine that meets the storage contract of section 4.2 of the spec:
its state lists the stored `(sessionID, key, value)` triples, newest first, and
`encode` turns a stored value into the payload that `Reader` returns. -/
def tableStore {α : Type} (encode : α → List Nat) : Store (List (String × String × α)) α where
  Reader cv st :=
    match cv.Key with
    | none => ((none, some .ErrorKeyNotExist), st)
    | some k =>
      match st.find? (fun e => e.1 == cv.ID && e.2.1 == k) with
      | some e => ((some (encode e.2.2), none), st)
      | none => ((none, some .ErrorKeyNotExist), st)
  Writer cv st :=
    match cv.Key, cv.Data with
    | some k, some v => if k = "" then (some .ErrorKeyFormat, st) else (none, (cv.ID, k, v) :: st)
    | _, _ => (some .ErrorKeyFormat, st)
  Remove cv st :=
    match cv.Key with
    | some k =>
      if k = "" then (some .ErrorKeyFormat, st)
      else (none, st.filter (fun e => !(e.1 == cv.ID && e.2.1 == k)))
    | none => (some .ErrorKeyFormat, st)
  Clean cv st := (none, st.filter (fun e => !(e.1 == cv.ID)))

/-- An engine whose backend is unreachable: every operation fails with an I/O
error.  Its state counts the operations invoked on it. -/
def unreachableStore {α : Type} : Store Nat α where
  Reader _ n := ((none, some (.New "dial tcp: connection refused")), n + 1)
  Writer _ n := (some (.New "dial tcp: connection refused"), n + 1)
  Remove _ n := (some (.New "dial tcp: connection refused"), n + 1)
  Clean _ n := (some (.New "dial tcp: connection refused"), n + 1)

/-- A configuration with max-age `maxAge` seconds for the engine kind `st`. -/
def sampleConfig (maxAge : Int) (st : StoreType) : Config :=
  { CookieName := "go_session_id"
    Path := "/"
    Domain := ""
    MaxAge := maxAge
    HttpOnly := true
    Secure := false
    _st := st }

/-- The package state after `Builder(Memory, conf)` succeeded with
`conf = sampleConfig maxAge Memory`: an empty store index. -/
def freshMemory (α : Type) (maxAge : Int) : Globals α :=
  { _Cfg := some (sampleConfig maxAge .Memory)
    _Store := some (.memory newMemoryStore) }

/-- The store index of the package state; empty when `_Store` holds no
`*MemoryStore`. -/
def Globals.index {α : Type} (g : Globals α) : String → Option (MemorySession α) :=
  match g._Store with
  | some (.memory m) => m.values
  | _ => fun _ => none

/-- The cookie that `newCookie` hands to `http.SetCookie`. -/
def mintedCookie (cfg : Config) (rnd : String) (now1 : Time) : Cookie :=
  { Name := cfg.CookieName
    Value := QueryEscape rnd
    Path := cfg.Path
    Domain := cfg.Domain
    HttpOnly := cfg.HttpOnly
    Secure := cfg.Secure
    MaxAge := cfg.MaxAge
    Expires := now1.Add cfg.MaxAge }

/-- The package state after a first request without cookie was served from an
empty store index with `s@1` as the minted identifier. -/
def servedOnce : Globals Nat :=
  { _Cfg := some (sampleConfig 1800 .Memory)
    _Store := some (.memory (newMemoryStore.assign "s@1" (newMSessionItem "s@1" 1800 ⟨0⟩))) }

/-- A configuration whose cookie name, with a space in it, is not a valid
cookie name. -/
def spacedNameConfig : Config :=
  { sampleConfig 1800 .Memory with CookieName := "session id" }

/-- The zone of New York around 2023: five hours west of UTC, four hours west
from 2023-03-12 07:00 UTC to 2023-11-05 06:00 UTC and again from 2024-03-10
07:00 UTC on. -/
def newYork : Location :=
  { offset0 := -18000
    tx := [(1678604400, -14400), (1699164000, -18000), (1710054000, -14400)] }

/-- The package state with the `Memory` engine, an empty store index and the
cookie name `session id`. -/
def spacedNameMemory : Globals Nat :=
  { _Cfg := some spacedNameConfig
    _Store := some (.memory newMemoryStore) }

/-! ## Basic facts -/

theorem length_le_zero_iff (s : String) : s.length ≤ 0 ↔ s = "" := by
  constructor
  · intro h
    have h0 : s.data.length = 0 := Nat.le_zero.mp h
    have h1 : s.data = [] := List.length_eq_zero.mp h0
    cases s
    simp_all
  · rintro rfl
    decide

/-! ### The calendar -/

/-- The year chosen by `yearOfDay` contains the day. -/
theorem yearOfDay_spec (days : Int) :
    daysBeforeYear (yearOfDay days) ≤ days ∧ days < daysBeforeYear (yearOfDay days + 1) := by
  unfold yearOfDay
  simp only
  split_ifs with h1 h2
  · refine ⟨?_, ?_⟩
    · unfold daysBeforeYear at *
      simp only at *
      omega
    · simpa using h1
  · refine ⟨?_, ?_⟩
    · exact h2
    · unfold daysBeforeYear at *
      simp only at *
      omega
  · exact ⟨not_lt.mp h1, not_le.mp h2⟩

theorem isLeap_iff (y : Int) :
    isLeap y = true ↔ (y % 4 = 0 ∧ (y % 100 ≠ 0 ∨ y % 400 = 0)) := by
  simp [isLeap]

/-- A year has 366 days when it is a leap year and 365 days otherwise. -/
theorem daysBeforeYear_succ (y : Int) :
    daysBeforeYear (y + 1) = daysBeforeYear y + (if isLeap y = true then 366 else 365) := by
  have hl := isLeap_iff y
  by_cases h : isLeap y = true
  · rw [if_pos h]
    have h2 := hl.mp h
    unfold daysBeforeYear
    simp only
    omega
  · rw [if_neg h]
    have h2 : ¬ (y % 4 = 0 ∧ (y % 100 ≠ 0 ∨ y % 400 = 0)) := fun hh => h (hl.mpr hh)
    unfold daysBeforeYear
    simp only
    omega

/-- From March on, the table `daysBefore` agrees with the count of days since
March 1st. -/
theorem daysBefore_from_march (mp : Int) (h0 : 0 ≤ mp) (h9 : mp ≤ 9) :
    daysBefore (mp + 2).toNat = 59 + (153 * mp + 2) / 5 := by
  interval_cases mp <;> decide

/-- The day count of a date whose month is in range. -/
theorem daysFromCivil_in_range (year month day : Int) (h1 : 1 ≤ month) (h12 : month ≤ 12) :
    daysFromCivil year month day =
      daysBeforeYear year + daysBefore (month - 1).toNat
        + (if isLeap year = true ∧ 3 ≤ month then 1 else 0) + (day - 1) := by
  unfold daysFromCivil
  have hq : (month - 1) / 12 = 0 := by omega
  have hr : (month - 1) % 12 = month - 1 := by omega
  simp only [hq, hr, add_zero]
  have hm : (2 ≤ (month - 1).toNat) ↔ 3 ≤ month := by omega
  simp only [Bool.and_eq_true, decide_eq_true_eq, hm]

/-- The date given by `civilFromDays` has a month from 1 to 12 and a day from
1 to 31, and `daysFromCivil` maps it back to the day it came from. -/
theorem civilFromDays_valid (days : Int) :
    1 ≤ (civilFromDays days).2.1 ∧ (civilFromDays days).2.1 ≤ 12 ∧
    1 ≤ (civilFromDays days).2.2 ∧ (civilFromDays days).2.2 ≤ 31 ∧
    daysFromCivil (civilFromDays days).1 (civilFromDays days).2.1 (civilFromDays days).2.2
      = days := by
  have hy := yearOfDay_spec days
  have hs := daysBeforeYear_succ (yearOfDay days)
  unfold civilFromDays
  simp only
  generalize yearOfDay days = year at hy hs ⊢
  by_cases hl : isLeap year = true
  · simp only [hl, if_true] at hs ⊢
    split_ifs with h1 h2
    · simp only
      rw [daysFromCivil_in_range _ _ _ (by omega) (by omega)]
      simp [daysBefore, hl]
      omega
    · simp only
      rw [daysFromCivil_in_range _ _ _ (by omega) (by omega)]
      simp [daysBefore, hl]
      omega
    · simp only
      have hmp0 : 0 ≤ (5 * (days - daysBeforeYear year - (59 + 1)) + 2) / 153 := by omega
      have hmp9 : (5 * (days - daysBeforeYear year - (59 + 1)) + 2) / 153 ≤ 9 := by omega
      rw [daysFromCivil_in_range _ _ _ (by omega) (by omega)]
      have ht := daysBefore_from_march _ hmp0 hmp9
      have e : (5 * (days - daysBeforeYear year - (59 + 1)) + 2) / 153 + 3 - 1
          = (5 * (days - daysBeforeYear year - (59 + 1)) + 2) / 153 + 2 := by ring
      rw [e, ht]
      simp only [hl, true_and]
      refine ⟨by omega, by omega, by omega, by omega, ?_⟩
      rw [if_pos (by omega)]
      omega
  · simp only [hl, Bool.false_eq_true, if_false] at hs ⊢
    split_ifs with h1 h2
    · simp only
      rw [daysFromCivil_in_range _ _ _ (by omega) (by omega)]
      simp [daysBefore, hl]
      omega
    · simp only
      rw [daysFromCivil_in_range _ _ _ (by omega) (by omega)]
      simp [daysBefore, hl]
      omega
    · simp only
      have hmp0 : 0 ≤ (5 * (days - daysBeforeYear year - (59 + 0)) + 2) / 153 := by omega
      have hmp9 : (5 * (days - daysBeforeYear year - (59 + 0)) + 2) / 153 ≤ 9 := by omega
      rw [daysFromCivil_in_range _ _ _ (by omega) (by omega)]
      have ht := daysBefore_from_march _ hmp0 hmp9
      have e : (5 * (days - daysBeforeYear year - (59 + 0)) + 2) / 153 + 3 - 1
          = (5 * (days - daysBeforeYear year - (59 + 0)) + 2) / 153 + 2 := by ring
      rw [e, ht]
      simp only [hl, Bool.false_eq_true, false_and, if_false]
      refine ⟨by omega, by omega, by omega, by omega, ?_⟩
      omega

/-- The same month and day one year earlier lie 365 or 366 days back. -/
theorem daysFromCivil_year_back (year month day : Int) (h1 : 1 ≤ month) (h12 : month ≤ 12) :
    daysFromCivil (year - 1) month day = daysFromCivil year month day - 365 ∨
    daysFromCivil (year - 1) month day = daysFromCivil year month day - 366 := by
  rw [daysFromCivil_in_range _ _ _ h1 h12, daysFromCivil_in_range _ _ _ h1 h12]
  have hs := daysBeforeYear_succ (year - 1)
  rw [sub_add_cancel] at hs
  have hl1 := isLeap_iff (year - 1)
  have hl := isLeap_iff year
  by_cases a : isLeap (year - 1) = true <;> by_cases b : isLeap year = true <;>
    by_cases c : 3 ≤ month <;> simp only [a, b, c, if_true, if_false, true_and, and_true,
      and_false, false_and, Bool.false_eq_true] at hs hl1 hl ⊢ <;> omega

/-- The offset that `Date` subtracts is in force at some instant of the zone. -/
theorem Date_unixNano (year month day hour min sec nsec : Int) (loc : Location)
    (hn0 : 0 ≤ nsec) (hn1 : nsec < 1000000000) :
    ∃ u : Int, (Date year month day hour min sec nsec loc).unixNano =
      (daysFromCivil year month day * 86400 + hour * 3600 + min * 60 + sec
        - (loc.lookup u).1) * 1000000000 + nsec := by
  have hq : nsec / 1000000000 = 0 := by omega
  have hr : nsec % 1000000000 = nsec := by omega
  unfold Date
  simp only [hq, hr, add_zero]
  split_ifs with h
  · exact ⟨_, rfl⟩
  · exact ⟨_, rfl⟩

/-- `AddDate(-1, 0, 0)` moves an instant 365 or 366 days back, corrected by the
difference between the zone offset in force at the instant and a zone offset
of the same zone that `Date` picks for the wall-clock reading of the result. -/
theorem AddDate_year_back (t : Time) (loc : Location) :
    ∃ n u : Int, (n = 365 ∨ n = 366) ∧
      (t.AddDate loc (-1) 0 0).unixNano =
        t.unixNano - n * 86400000000000
          + ((loc.lookup (t.unixNano / 1000000000)).1 - (loc.lookup u).1) * 1000000000 := by
  have hv := civilFromDays_valid (t.abs loc / 86400)
  obtain ⟨hm1, hm12, -, -, hback⟩ := hv
  have hyb := daysFromCivil_year_back (civilFromDays (t.abs loc / 86400)).1
    (civilFromDays (t.abs loc / 86400)).2.1 (civilFromDays (t.abs loc / 86400)).2.2 hm1 hm12
  rw [hback] at hyb
  obtain ⟨u, hu⟩ := Date_unixNano ((civilFromDays (t.abs loc / 86400)).1 + -1)
    ((civilFromDays (t.abs loc / 86400)).2.1 + 0) ((civilFromDays (t.abs loc / 86400)).2.2 + 0)
    (t.abs loc % 86400 / 3600) (t.abs loc % 86400 / 60 % 60) (t.abs loc % 86400 % 60)
    (t.unixNano % 1000000000) loc (by omega) (by omega)
  have hadd : t.AddDate loc (-1) 0 0 =
      Date ((civilFromDays (t.abs loc / 86400)).1 + -1)
        ((civilFromDays (t.abs loc / 86400)).2.1 + 0) ((civilFromDays (t.abs loc / 86400)).2.2 + 0)
        (t.abs loc % 86400 / 3600) (t.abs loc % 86400 / 60 % 60) (t.abs loc % 86400 % 60)
        (t.unixNano % 1000000000) loc := rfl
  rw [hadd, hu]
  simp only [add_zero, Int.add_neg_one] at hyb ⊢
  have habs : t.abs loc = t.unixNano / 1000000000 + (loc.lookup (t.unixNano / 1000000000)).1 :=
    rfl
  generalize (loc.lookup (t.unixNano / 1000000000)).1 = off1 at *
  generalize t.abs loc = a at *
  rcases hyb with h | h
  · exact ⟨365, u, Or.inl rfl, by rw [h]; omega⟩
  · exact ⟨366, u, Or.inr rfl, by rw [h]; omega⟩

/-- Calendar check of `AddDate(-1, 0, 0)`.  In UTC, one year before noon of
2024-02-29 is noon of 2023-03-01.  In New York, one year before noon of
2024-03-10, in daylight time, is noon of 2023-03-10 in standard time, 366
days and one hour earlier. -/
theorem AddDate_minus_one_year_samples :
    (Time.mk 1709208000000000123).Date UTC = (2024, 2, 29) ∧
    (Time.mk 1709208000000000123).AddDate UTC (-1) 0 0 = ⟨1677672000000000123⟩ ∧
    (Time.mk 1677672000000000123).Date UTC = (2023, 3, 1) ∧
    (Time.mk 0).AddDate UTC (-1) 0 0 = ⟨-31536000000000000⟩ ∧
    (Time.mk 1710086400000000000).Date newYork = (2024, 3, 10) ∧
    (Time.mk 1710086400000000000).Clock newYork = (12, 0, 0) ∧
    (Time.mk 1710086400000000000).AddDate newYork (-1) 0 0 = ⟨1678467600000000000⟩ := by
  decide

theorem empty_key_test (key : String) : (key = "" ∨ key.length ≤ 0) ↔ key = "" := by
  rw [length_le_zero_iff]
  simp

/-! ## Handle methods: properties -/

section HandleProperties

variable {σ α : Type}

/-- The tail of `Get`: a `Reader` result with a `nil` error is returned as it is. -/
theorem reader_result_passed (r : (Bytes × Option Error) × σ) (b : Bytes) (h : r.1 = (b, none)) :
    (match r with
      | ((b, err), st1) => if err ≠ none then ((none, err), st1) else ((b, none), st1)).1
      = (b, none) := by
  obtain ⟨⟨b1, err⟩, st1⟩ := r
  simp only [Prod.mk.injEq] at h
  obtain ⟨hb, he⟩ := h
  subst hb he
  simp

/-- C3. Relative to an engine whose `Writer` accepts every non-empty key and
whose `Reader`, run right after that `Writer` on the same `(sessionID, key)`,
returns the payload stored for the value with a `nil` error: for both handle
kinds, `Set(k, v)` with a non-empty key returns `nil`, and the following
`Get(k)` returns that payload with a `nil` error. -/
theorem set_get_round_trip (E : Store σ α) (payload : α → List Nat)
    (hW : ∀ (id k : String) (v : α) (st : σ), k ≠ "" →
      (E.Writer { ID := id, Key := some k, Data := some v } st).1 = none)
    (hR : ∀ (id k : String) (v : α) (st : σ), k ≠ "" →
      (E.Reader { ID := id, Key := some k, Data := none }
        (E.Writer { ID := id, Key := some k, Data := some v } st).2).1 = (some (payload v), none))
    (ms : MemorySession α) (rs : RedisSession) (k : String) (v : α) (st : σ) (hk : k ≠ "") :
    (MemorySession.Set E ms k v st).1 = none ∧
    (MemorySession.Get E ms k (MemorySession.Set E ms k v st).2).1 = (some (payload v), none) ∧
    (RedisSession.Set E rs k v st).1 = none ∧
    (RedisSession.Get E rs k (RedisSession.Set E rs k v st).2).1 = (some (payload v), none) := by
  have hk2 : ¬ (k = "" ∨ k.length ≤ 0) := by rw [empty_key_test]; exact hk
  refine ⟨?_, ?_, ?_, ?_⟩
  · simp only [MemorySession.Set, if_neg hk2]
    exact hW ms.ID k v st hk
  · have h := hR ms.ID k v st hk
    unfold MemorySession.Get
    rw [if_neg hk2]
    unfold MemorySession.Set
    rw [if_neg hk2]
    exact reader_result_passed _ _ h
  · simp only [RedisSession.Set, if_neg hk2]
    exact hW rs.ID k v st hk
  · have h := hR rs.ID k v st hk
    unfold RedisSession.Get
    rw [if_neg hk2]
    unfold RedisSession.Set
    rw [if_neg hk2]
    exact reader_result_passed _ _ h

/-- The table engine accepts every write under a non-empty key. -/
theorem tableStore_writer_ok (encode : α → List Nat) (id k : String) (v : α)
    (st : List (String × String × α)) (hk : k ≠ "") :
    ((tableStore encode).Writer { ID := id, Key := some k, Data := some v } st).1 = none := by
  simp [tableStore, hk]

/-- The table engine reads back what was just written under the same slot. -/
theorem tableStore_reader_after_writer (encode : α → List Nat) (id k : String) (v : α)
    (st : List (String × String × α)) (hk : k ≠ "") :
    ((tableStore encode).Reader { ID := id, Key := some k, Data := none }
      ((tableStore encode).Writer { ID := id, Key := some k, Data := some v } st).2).1
      = (some (encode v), none) := by
  simp [tableStore, hk]

/-- Witness for C3: the round trip on the table engine, for the key `"user"`
and the value `[104, 105]`, starting from an empty table. -/
theorem set_get_round_trip_witness :
    "user" ≠ "" ∧
    (MemorySession.Set (tableStore (fun b => b)) ⟨"sid-1", ⟨0⟩, []⟩ "user" [104, 105] []).1 = none ∧
    (MemorySession.Get (tableStore (fun b => b)) ⟨"sid-1", ⟨0⟩, []⟩ "user"
      (MemorySession.Set (tableStore (fun b => b)) ⟨"sid-1", ⟨0⟩, []⟩ "user" [104, 105] []).2).1
      = (some [104, 105], none) ∧
    (RedisSession.Set (tableStore (fun b => b)) ⟨"sid-2", ⟨0⟩⟩ "user" [104, 105] []).1 = none ∧
    (RedisSession.Get (tableStore (fun b => b)) ⟨"sid-2", ⟨0⟩⟩ "user"
      (RedisSession.Set (tableStore (fun b => b)) ⟨"sid-2", ⟨0⟩⟩ "user" [104, 105] []).2).1
      = (some [104, 105], none) :=
  ⟨by decide,
    set_get_round_trip (tableStore (fun b => b)) (fun b => b)
      (tableStore_writer_ok (fun b => b)) (tableStore_reader_after_writer (fun b => b))
      ⟨"sid-1", ⟨0⟩, []⟩ ⟨"sid-2", ⟨0⟩⟩ "user" [104, 105] [] (by decide)⟩

/-- C4. For both handle kinds, every engine, every engine state and every
value: `Get("")` returns `(nil, ErrorKeyNotExist)`, `Set("", v)` and `Del("")`
return `ErrorKeyFormat`, and the engine state after the call is the state
before it, whatever the four operations of the engine would have done. -/
theorem empty_key_rejected (E : Store σ α) (ms : MemorySession α) (rs : RedisSession) (v : α)
    (st : σ) :
    MemorySession.Get E ms "" st = ((none, some .ErrorKeyNotExist), st) ∧
    MemorySession.Set E ms "" v st = (some .ErrorKeyFormat, st) ∧
    MemorySession.Del E ms "" st = (some .ErrorKeyFormat, st) ∧
    RedisSession.Get E rs "" st = ((none, some .ErrorKeyNotExist), st) ∧
    RedisSession.Set E rs "" v st = (some .ErrorKeyFormat, st) ∧
    RedisSession.Del E rs "" st = (some .ErrorKeyFormat, st) := by
  refine ⟨?_, ?_, ?_, ?_, ?_, ?_⟩ <;> rfl

/-- C5 (failing input). On an engine whose `Remove` fails with an I/O error,
`Del("user")` of both handle kinds invokes `Remove` once (the call counter goes
from 0 to 1) and returns `nil`: the error that `Remove` returned is dropped. -/
theorem Del_drops_engine_error :
    ((unreachableStore : Store Nat Nat).Remove { ID := "sid-1", Key := some "user", Data := none } 0).1
      = some (.New "dial tcp: connection refused") ∧
    MemorySession.Del (unreachableStore : Store Nat Nat) ⟨"sid-1", ⟨0⟩, []⟩ "user" 0 = (none, 1) ∧
    RedisSession.Del (unreachableStore : Store Nat Nat) ⟨"sid-1", ⟨0⟩⟩ "user" 0 = (none, 1) := by
  refine ⟨?_, ?_, ?_⟩ <;> decide

/-- The offset found by the scan is the starting one or one of the table. -/
theorem lookupFrom_mem (tx : List (Int × Int)) (offset start sec : Int) :
    (lookupFrom offset start tx sec).1 ∈ offset :: tx.map (fun e => e.2) := by
  induction tx generalizing offset start with
  | nil => simp [lookupFrom]
  | cons e rest ih =>
    obtain ⟨when, off⟩ := e
    unfold lookupFrom
    split_ifs with h
    · simp
    · have := ih off when
      simp only [List.map_cons, List.mem_cons] at this ⊢
      rcases this with h1 | h1
      · exact Or.inr (Or.inl h1)
      · exact Or.inr (Or.inr h1)

/-- Every offset that `lookup` returns is one of the offsets of the zone. -/
theorem lookup_mem_offsets (loc : Location) (sec : Int) :
    (loc.lookup sec).1 ∈ loc.offsets :=
  lookupFrom_mem loc.tx loc.offset0 _ sec

/-- A zone without transitions has one offset. -/
theorem lookup_fixed_zone (loc : Location) (h : loc.tx = []) (sec : Int) :
    (loc.lookup sec).1 = loc.offset0 := by
  simp [Location.lookup, h, lookupFrom]

/-- C8 (amended). For both handle kinds, every engine and every engine state:
`Clean` leaves the engine in the state that one call of the engine's `Clean`
on this session's ID produces, whatever error that call returned.  When the
configured cookie name is a valid cookie name, it then adds to the response
exactly one cookie, with the configured name, path, domain, `Secure` and
`HttpOnly`, an empty value, `MaxAge = -1` and `Expires = now.AddDate(-1, 0, 0)`
in the zone of the process; with any other cookie name it adds none.  That
`Expires` lies 365 or 366 days before `now`, corrected by the difference of two
offsets of the zone: exactly 365 or 366 days before `now` in a zone without
transitions, and between 363 and 368 days before `now` in a zone whose offsets
stay within a day of UTC. -/
theorem Clean_expires_cookie (E : Store σ α) (cfg : Config) (ms : MemorySession α)
    (rs : RedisSession) (w : ResponseWriter) (now : Time) (loc : Location) (st : σ) :
    (isCookieNameValid cfg.CookieName = true →
      MemorySession.Clean E cfg ms w now loc st =
        ((E.Clean { ID := ms.ID, Key := none, Data := none } st).2,
          ⟨w.cookies ++ [{ Name := cfg.CookieName, Value := "", Path := cfg.Path,
                           Domain := cfg.Domain, Secure := cfg.Secure, MaxAge := -1,
                           Expires := now.AddDate loc (-1) 0 0,
                           HttpOnly := cfg.HttpOnly }]⟩) ∧
      RedisSession.Clean E cfg rs w now loc st =
        ((E.Clean { ID := rs.ID, Key := none, Data := none } st).2,
          ⟨w.cookies ++ [{ Name := cfg.CookieName, Value := "", Path := cfg.Path,
                           Domain := cfg.Domain, Secure := cfg.Secure, MaxAge := -1,
                           Expires := now.AddDate loc (-1) 0 0,
                           HttpOnly := cfg.HttpOnly }]⟩)) ∧
    (isCookieNameValid cfg.CookieName = false →
      MemorySession.Clean E cfg ms w now loc st =
        ((E.Clean { ID := ms.ID, Key := none, Data := none } st).2, w) ∧
      RedisSession.Clean E cfg rs w now loc st =
        ((E.Clean { ID := rs.ID, Key := none, Data := none } st).2, w)) ∧
    (∃ n u : Int, (n = 365 ∨ n = 366) ∧
      (now.AddDate loc (-1) 0 0).unixNano =
        now.unixNano - n * 86400000000000
          + ((loc.lookup (now.unixNano / 1000000000)).1 - (loc.lookup u).1) * 1000000000) ∧
    (loc.tx = [] →
      ∃ n : Int, (n = 365 ∨ n = 366) ∧
        (now.AddDate loc (-1) 0 0).unixNano = now.unixNano - n * 86400000000000) ∧
    ((∀ o ∈ loc.offsets, -86400 ≤ o ∧ o ≤ 86400) →
      now.unixNano - 368 * 86400000000000 ≤ (now.AddDate loc (-1) 0 0).unixNano ∧
      (now.AddDate loc (-1) 0 0).unixNano ≤ now.unixNano - 363 * 86400000000000) := by
  refine ⟨?_, ?_, AddDate_year_back now loc, ?_, ?_⟩
  · intro h
    simp [MemorySession.Clean, RedisSession.Clean, SetCookie, h]
  · intro h
    simp [MemorySession.Clean, RedisSession.Clean, SetCookie, h]
  · intro h
    obtain ⟨n, u, hn, hu⟩ := AddDate_year_back now loc
    rw [lookup_fixed_zone loc h, lookup_fixed_zone loc h] at hu
    exact ⟨n, hn, by rw [hu]; omega⟩
  · intro h
    obtain ⟨n, u, hn, hu⟩ := AddDate_year_back now loc
    have h1 := h _ (lookup_mem_offsets loc (now.unixNano / 1000000000))
    have h2 := h _ (lookup_mem_offsets loc u)
    rw [hu]
    rcases hn with rfl | rfl <;> omega

/-- Witness for C8 (amended): `Clean` at noon of 2024-03-10 in New York, on an
engine whose `Clean` fails, with the cookie name `go_session_id`: the cookie
expires at noon of 2023-03-10 in New York, 17:00 UTC. -/
theorem Clean_expires_cookie_witness :
    isCookieNameValid (sampleConfig 1800 .Memory).CookieName = true ∧
    MemorySession.Clean (unreachableStore : Store Nat Nat) (sampleConfig 1800 .Memory)
        ⟨"sid-1", ⟨0⟩, []⟩ ⟨[]⟩ ⟨1710086400000000000⟩ newYork 0 =
      (1, ⟨[{ Name := "go_session_id", Value := "", Path := "/", Domain := "", Secure := false,
              MaxAge := -1, Expires := ⟨1678467600000000000⟩, HttpOnly := true }]⟩) ∧
    RedisSession.Clean (unreachableStore : Store Nat Nat) (sampleConfig 1800 .Memory)
        ⟨"sid-1", ⟨0⟩⟩ ⟨[]⟩ ⟨1710086400000000000⟩ newYork 0 =
      (1, ⟨[{ Name := "go_session_id", Value := "", Path := "/", Domain := "", Secure := false,
              MaxAge := -1, Expires := ⟨1678467600000000000⟩, HttpOnly := true }]⟩) :=
  ⟨by decide,
    (((Clean_expires_cookie (unreachableStore : Store Nat Nat) (sampleConfig 1800 .Memory)
      ⟨"sid-1", ⟨0⟩, []⟩ ⟨"sid-1", ⟨0⟩⟩ ⟨[]⟩ ⟨1710086400000000000⟩ newYork 0).1
      (by decide)).1).trans (by decide),
    (((Clean_expires_cookie (unreachableStore : Store Nat Nat) (sampleConfig 1800 .Memory)
      ⟨"sid-1", ⟨0⟩, []⟩ ⟨"sid-1", ⟨0⟩⟩ ⟨[]⟩ ⟨1710086400000000000⟩ newYork 0).1
      (by decide)).2).trans (by decide)⟩

/-- C8 (counterexample). With the configured cookie name `session id`, which
is not a valid cookie name, `Clean` adds no cookie to the response: it is
false that exactly one cookie is written. -/
theorem Clean_cookie_name_counterexample :
    ¬ ∃ c : Cookie,
      (MemorySession.Clean (unreachableStore : Store Nat Nat) spacedNameConfig
        ⟨"sid-1", ⟨0⟩, []⟩ ⟨[]⟩ ⟨1710086400000000000⟩ UTC 0).2 = ⟨[] ++ [c]⟩ := by
  have h : (MemorySession.Clean (unreachableStore : Store Nat Nat) spacedNameConfig
      ⟨"sid-1", ⟨0⟩, []⟩ ⟨[]⟩ ⟨1710086400000000000⟩ UTC 0).2 = ⟨[]⟩ := by decide
  rw [h]
  rintro ⟨c, hc⟩
  simp at hc

end HandleProperties

/-! ## `Builder` -/

section Coordinator

variable {α : Type}

/-- C9. `Builder` and the floor `DefaultMaxAge = 1800`: with `MaxAge < 1800` it
returns an error for every engine kind; for a kind other than `Memory` and
`Redis` it returns an error whatever the `MaxAge`; for the kind `Memory` it
returns `nil` exactly when `1800 ≤ MaxAge`, and then `_Store` is a new memory
store and `_Cfg` is the given configuration with engine kind `Memory`. -/
theorem Builder_max_age_floor (store : StoreType) (conf : Config)
    (newRedis : RedisStore × Option Error) (g : Globals α) :
    (conf.MaxAge < 1800 → (Builder store conf newRedis g).1 ≠ none) ∧
    (store ≠ .Memory → store ≠ .Redis → (Builder store conf newRedis g).1 ≠ none) ∧
    ((Builder .Memory conf newRedis g).1 = none ↔ 1800 ≤ conf.MaxAge) ∧
    (1800 ≤ conf.MaxAge →
      Builder .Memory conf newRedis g =
        (none, { _Cfg := some { conf with _st := .Memory },
                 _Store := some (.memory newMemoryStore) })) := by
  refine ⟨?_, ?_, ?_, ?_⟩
  · intro h
    simp [Builder, DefaultMaxAge, h]
  · intro h1 h2
    unfold Builder
    split
    · simp
    · cases store <;> simp_all
  · unfold Builder
    simp only [DefaultMaxAge]
    split
    · rename_i h
      simp only [reduceCtorEq, false_iff, not_le]
      exact h
    · rename_i h
      simp only [true_iff]
      exact not_lt.mp h
  · intro h
    have h2 : ¬ conf.MaxAge < DefaultMaxAge := by simp [DefaultMaxAge, h]
    simp [Builder, h2]

/-- Witness for C9: a max-age of 1799 is rejected for the `Redis` engine, the
kind `other 7` is rejected with a max-age of 3600, and `Memory` with a max-age
of exactly 1800 is accepted. -/
theorem Builder_max_age_floor_witness :
    (@Builder Nat .Redis (sampleConfig 1799 .Redis) (⟨0⟩, none) ⟨none, none⟩).1 ≠ none ∧
    (@Builder Nat (.other 7) (sampleConfig 3600 .Memory) (⟨0⟩, none) ⟨none, none⟩).1 ≠ none ∧
    (@Builder Nat .Memory (sampleConfig 1800 .Redis) (⟨0⟩, none) ⟨none, none⟩).1 = none ∧
    @Builder Nat .Memory (sampleConfig 1800 .Redis) (⟨0⟩, none) ⟨none, none⟩ =
      (none, freshMemory Nat 1800) :=
  ⟨(Builder_max_age_floor .Redis (sampleConfig 1799 .Redis) (⟨0⟩, none) ⟨none, none⟩).1
      (by decide),
    (Builder_max_age_floor (.other 7) (sampleConfig 3600 .Memory) (⟨0⟩, none) ⟨none, none⟩).2.1
      (by decide) (by decide),
    (Builder_max_age_floor .Memory (sampleConfig 1800 .Redis) (⟨0⟩, none) ⟨none, none⟩).2.2.1.mpr
      (by decide),
    (Builder_max_age_floor .Memory (sampleConfig 1800 .Redis) (⟨0⟩, none) ⟨none, none⟩).2.2.2
      (by decide)⟩

/-! ## `Ctx` -/

/-- C7. For every engine kind and every `_Store`: when the request carries
the session cookie with a non-empty value on which `url.QueryUnescape` fails
with the error `e`, `Ctx` returns `(nil, e)`; the package state and the
response are the ones before the call, so no identifier is bound, no session
is registered and no cookie is written. -/
theorem Ctx_decode_failure (g : Globals α) (writer : ResponseWriter) (request : Request)
    (rnd : String) (now1 now2 : Time) (cfg : Config) (v : String) (e : Error)
    (hcfg : g._Cfg = some cfg) (hcookie : request.Cookie cfg.CookieName = some v)
    (hv : v ≠ "") (he : (QueryUnescape v).2 = some e) :
    Ctx g writer request rnd now1 now2 = some ((none, some e), g, writer) := by
  have hlen : ¬ v.length ≤ 0 := by rw [length_le_zero_iff]; exact hv
  unfold Ctx
  simp only [hcfg, hcookie, if_neg hlen]
  rcases hq : QueryUnescape v with ⟨sid, err⟩
  rw [hq] at he
  simp only at he
  subst he
  simp

/-- Witness for C7: the cookie value `%zz` is a malformed escape, for the
`Memory` engine. -/
theorem Ctx_decode_failure_witness :
    "%zz" ≠ "" ∧ (QueryUnescape "%zz").2 = some (.EscapeError "%zz") ∧
    Ctx (freshMemory Nat 1800) ⟨[]⟩ ⟨[("go_session_id", "%zz")]⟩ "fresh" ⟨0⟩ ⟨0⟩ =
      some ((none, some (.EscapeError "%zz")), freshMemory Nat 1800, ⟨[]⟩) :=
  ⟨by decide, by decide,
    Ctx_decode_failure (freshMemory Nat 1800) ⟨[]⟩ ⟨[("go_session_id", "%zz")]⟩ "fresh" ⟨0⟩ ⟨0⟩
      (sampleConfig 1800 .Memory) "%zz" (.EscapeError "%zz") rfl (by decide) (by decide)
      (by decide)⟩

/-- With the `Memory` engine `newCookie` writes the cookie, registers the new
session object under the minted identifier and returns it. -/
theorem newCookie_memory (g : Globals α) (w : ResponseWriter) (c : Option String)
    (rnd : String) (now1 now2 : Time) (cfg : Config) (m : MemoryStore α)
    (hcfg : g._Cfg = some cfg) (hst : cfg._st = .Memory) (hstore : g._Store = some (.memory m)) :
    newCookie g w c rnd now1 now2 =
      some (.memory (some (newMSessionItem rnd cfg.MaxAge now2)),
        { g with _Store := some (.memory (m.assign rnd (newMSessionItem rnd cfg.MaxAge now2))) },
        SetCookie w (mintedCookie cfg rnd now1)) := by
  simp [newCookie, hcfg, hst, hstore, mintedCookie]

/-- `Ctx` with the `Memory` engine on a request without the session cookie, or
with an empty one: the result of `newCookie`. -/
theorem Ctx_memory_absent (g : Globals α) (w : ResponseWriter) (request : Request)
    (rnd : String) (now1 now2 : Time) (cfg : Config) (m : MemoryStore α)
    (hcfg : g._Cfg = some cfg) (hst : cfg._st = .Memory) (hstore : g._Store = some (.memory m))
    (hcookie : request.Cookie cfg.CookieName = none ∨ request.Cookie cfg.CookieName = some "") :
    Ctx g w request rnd now1 now2 =
      some ((some (.memory (some (newMSessionItem rnd cfg.MaxAge now2))), none),
        { g with _Store := some (.memory (m.assign rnd (newMSessionItem rnd cfg.MaxAge now2))) },
        SetCookie w (mintedCookie cfg rnd now1)) := by
  rcases hcookie with h | h
  · simp [Ctx, hcfg, hst, h, newCookie_memory g w _ rnd now1 now2 cfg m hcfg hst hstore]
  · simp [Ctx, hcfg, hst, h, newCookie_memory g w _ rnd now1 now2 cfg m hcfg hst hstore]

/-- `Ctx` with the `Memory` engine on a cookie whose value unescapes to an
identifier that the store index does not know: the new session object is
registered under the minted identifier and under the presented one. -/
theorem Ctx_memory_stale (g : Globals α) (w : ResponseWriter) (request : Request)
    (rnd : String) (now1 now2 : Time) (cfg : Config) (m : MemoryStore α) (v : String)
    (hcfg : g._Cfg = some cfg) (hst : cfg._st = .Memory) (hstore : g._Store = some (.memory m))
    (hcookie : request.Cookie cfg.CookieName = some v) (hv : v ≠ "")
    (herr : (QueryUnescape v).2 = none) (hnew : m.values (QueryUnescape v).1 = none) :
    Ctx g w request rnd now1 now2 =
      some ((some (.memory (some (newMSessionItem rnd cfg.MaxAge now2))), none),
        { g with _Store := some (.memory
            ((m.assign rnd (newMSessionItem rnd cfg.MaxAge now2)).assign (QueryUnescape v).1
              (newMSessionItem rnd cfg.MaxAge now2))) },
        SetCookie w (mintedCookie cfg rnd now1)) := by
  have hlen : ¬ v.length ≤ 0 := by rw [length_le_zero_iff]; exact hv
  unfold Ctx
  simp only [hcfg, hst, hcookie, if_neg hlen, if_true]
  rcases hq : QueryUnescape v with ⟨sid, err⟩
  rw [hq] at herr hnew
  simp only at herr hnew
  subst herr
  simp [hstore, hnew, hcfg, newCookie_memory g w _ rnd now1 now2 cfg m hcfg hst hstore]

/-- What `http.SetCookie` does with the cookie of `newCookie`: it is added when
the configured cookie name is valid, and dropped otherwise. -/
theorem SetCookie_minted (w : ResponseWriter) (cfg : Config) (rnd : String) (now1 : Time) :
    (isCookieNameValid cfg.CookieName = true →
      ∃ c : Cookie, SetCookie w (mintedCookie cfg rnd now1) = ⟨w.cookies ++ [c]⟩ ∧
        c.Name = cfg.CookieName ∧ c.Value = QueryEscape rnd) ∧
    (isCookieNameValid cfg.CookieName = false → SetCookie w (mintedCookie cfg rnd now1) = w) := by
  refine ⟨?_, ?_⟩
  · intro h
    exact ⟨mintedCookie cfg rnd now1, by simp [SetCookie, mintedCookie, h], rfl, rfl⟩
  · intro h
    simp [SetCookie, mintedCookie, h]

/-- C2 (amended). `Ctx` with the `Memory` engine, on a request that has no
session cookie, has one with an empty value, or presents a value that unescapes
to an identifier unknown to the store index: it returns `(s, nil)` for a new
`MemorySession` `s` whose `ID` is the minted identifier and whose `Data` is
empty, and afterwards the store index maps the minted identifier to `s`.  When
the configured cookie name is a valid cookie name, exactly one cookie is added
to the response, with that name and the value `QueryEscape(minted identifier)`;
with any other cookie name no cookie is added. -/
theorem Ctx_creates_session (g : Globals α) (w : ResponseWriter) (request : Request)
    (rnd : String) (now1 now2 : Time) (cfg : Config) (m : MemoryStore α)
    (hcfg : g._Cfg = some cfg) (hst : cfg._st = .Memory) (hstore : g._Store = some (.memory m))
    (hcase : request.Cookie cfg.CookieName = none ∨ request.Cookie cfg.CookieName = some "" ∨
      ∃ v, request.Cookie cfg.CookieName = some v ∧ v ≠ "" ∧ (QueryUnescape v).2 = none ∧
        m.values (QueryUnescape v).1 = none) :
    ∃ (s : MemorySession α) (g1 : Globals α) (w1 : ResponseWriter),
      Ctx g w request rnd now1 now2 = some ((some (.memory (some s)), none), g1, w1) ∧
      s.ID = rnd ∧ s.Data = [] ∧ g1.index rnd = some s ∧
      (isCookieNameValid cfg.CookieName = true →
        ∃ c : Cookie, w1 = ⟨w.cookies ++ [c]⟩ ∧
          c.Name = cfg.CookieName ∧ c.Value = QueryEscape rnd) ∧
      (isCookieNameValid cfg.CookieName = false → w1 = w) := by
  have hw := SetCookie_minted w cfg rnd now1
  refine ⟨newMSessionItem rnd cfg.MaxAge now2, ?_⟩
  rcases hcase with h | h | ⟨v, h, hv, herr, hnew⟩
  · exact ⟨_, _, Ctx_memory_absent g w request rnd now1 now2 cfg m hcfg hst hstore (Or.inl h),
      rfl, rfl, by simp [Globals.index, MemoryStore.assign], hw.1, hw.2⟩
  · exact ⟨_, _, Ctx_memory_absent g w request rnd now1 now2 cfg m hcfg hst hstore (Or.inr h),
      rfl, rfl, by simp [Globals.index, MemoryStore.assign], hw.1, hw.2⟩
  · exact ⟨_, _,
      Ctx_memory_stale g w request rnd now1 now2 cfg m v hcfg hst hstore h hv herr hnew,
      rfl, rfl, by simp [Globals.index, MemoryStore.assign], hw.1, hw.2⟩

/-- Witness for C2 (amended): the scenario of the spec, the unknown identifier
`abc` presented to an empty store index, with `x+y` as the minted identifier
and `go_session_id` as the cookie name: the cookie value is `x%2By`. -/
theorem Ctx_creates_session_witness :
    ∃ (s : MemorySession Nat) (g1 : Globals Nat) (w1 : ResponseWriter),
      Ctx (freshMemory Nat 1800) ⟨[]⟩ ⟨[("go_session_id", "abc")]⟩ "x+y" ⟨0⟩ ⟨0⟩ =
        some ((some (.memory (some s)), none), g1, w1) ∧
      s.ID = "x+y" ∧ s.Data = [] ∧ g1.index "x+y" = some s ∧
      ∃ c : Cookie, w1 = ⟨[c]⟩ ∧ c.Name = "go_session_id" ∧ c.Value = "x%2By" := by
  obtain ⟨s, g1, w1, h1, h2, h3, h4, h5, -⟩ :=
    Ctx_creates_session (freshMemory Nat 1800) ⟨[]⟩ ⟨[("go_session_id", "abc")]⟩ "x+y" ⟨0⟩ ⟨0⟩
      (sampleConfig 1800 .Memory) newMemoryStore rfl rfl rfl
      (Or.inr (Or.inr ⟨"abc", by decide, by decide, by decide, rfl⟩))
  obtain ⟨c, hc1, hc2, hc3⟩ := h5 (by decide)
  have hq : QueryEscape "x+y" = "x%2By" := by decide
  exact ⟨s, g1, w1, h1, h2, h3, h4, c, hc1, hc2, by rw [hc3, hq]⟩

/-- C2 (counterexample). With the configured cookie name `session id`, which
is not a valid cookie name, a request without cookie gets its new session but
no cookie is added to the response: it is false that `Ctx` returns a new
session and writes a cookie. -/
theorem Ctx_cookie_name_counterexample :
    ¬ ∃ (s : MemorySession Nat) (c : Cookie) (g1 : Globals Nat),
      Ctx spacedNameMemory ⟨[]⟩ ⟨[]⟩ "xyz" ⟨0⟩ ⟨0⟩ =
        some ((some (.memory (some s)), none), g1, ⟨[] ++ [c]⟩) := by
  rintro ⟨s, c, g1, h⟩
  have hrun := Ctx_memory_absent spacedNameMemory ⟨[]⟩ ⟨[]⟩ "xyz" ⟨0⟩ ⟨0⟩ spacedNameConfig
    newMemoryStore rfl rfl rfl (Or.inl rfl)
  rw [hrun] at h
  have hw : SetCookie ⟨[]⟩ (mintedCookie spacedNameConfig "xyz" ⟨0⟩) = ⟨[]⟩ := by decide
  rw [hw] at h
  simp at h

/-- C6 (amended). `Ctx` with the `Memory` engine, on a cookie value that
unescapes to an identifier `old` unknown to the store index: the store index
after the call is the index before plus two entries for the one new session
`s`, whose `ID` is the minted identifier: `minted -> s` and `old -> s`; every
other key is unchanged, and `old` is a key afterwards. -/
theorem Ctx_stale_id_registers_both (g : Globals α) (w : ResponseWriter) (request : Request)
    (rnd : String) (now1 now2 : Time) (cfg : Config) (m : MemoryStore α) (v : String)
    (hcfg : g._Cfg = some cfg) (hst : cfg._st = .Memory) (hstore : g._Store = some (.memory m))
    (hcookie : request.Cookie cfg.CookieName = some v) (hv : v ≠ "")
    (herr : (QueryUnescape v).2 = none) (hnew : g.index (QueryUnescape v).1 = none) :
    ∃ (s : MemorySession α) (g1 : Globals α) (w1 : ResponseWriter),
      Ctx g w request rnd now1 now2 = some ((some (.memory (some s)), none), g1, w1) ∧
      s.ID = rnd ∧
      (∀ k, g1.index k = if k = (QueryUnescape v).1 ∨ k = rnd then some s else g.index k) ∧
      g1.index (QueryUnescape v).1 = some s := by
  have hnew2 : m.values (QueryUnescape v).1 = none := by
    simpa [Globals.index, hstore] using hnew
  refine ⟨newMSessionItem rnd cfg.MaxAge now2, _, _,
    Ctx_memory_stale g w request rnd now1 now2 cfg m v hcfg hst hstore hcookie hv herr hnew2,
    rfl, ?_, ?_⟩
  · intro k
    by_cases h1 : k = (QueryUnescape v).1
    · simp [Globals.index, MemoryStore.assign, h1]
    · by_cases h2 : k = rnd
      · simp [Globals.index, MemoryStore.assign, h2]
      · simp [Globals.index, MemoryStore.assign, h1, h2, hstore]
  · simp [Globals.index, MemoryStore.assign]

/-- Witness for C6 (amended): the unknown identifier `abc` presented to an
empty store index, with `xyz` as the minted identifier. -/
theorem Ctx_stale_id_registers_both_witness :
    ∃ (s : MemorySession Nat) (g1 : Globals Nat) (w1 : ResponseWriter),
      Ctx (freshMemory Nat 1800) ⟨[]⟩ ⟨[("go_session_id", "abc")]⟩ "xyz" ⟨0⟩ ⟨0⟩ =
        some ((some (.memory (some s)), none), g1, w1) ∧
      s.ID = "xyz" ∧
      (∀ k, g1.index k = if k = (QueryUnescape "abc").1 ∨ k = "xyz" then some s
        else (freshMemory Nat 1800).index k) ∧
      g1.index (QueryUnescape "abc").1 = some s :=
  Ctx_stale_id_registers_both (freshMemory Nat 1800) ⟨[]⟩ ⟨[("go_session_id", "abc")]⟩ "xyz"
    ⟨0⟩ ⟨0⟩ (sampleConfig 1800 .Memory) newMemoryStore "abc" rfl rfl rfl (by decide) (by decide)
    (by decide) rfl

/-- C6 (counterexample). The unknown identifier `abc` is presented to an empty
store index and `xyz` is minted: it is false that afterwards `abc` is not a
key of the store index and every key equals the `ID` of its session. -/
theorem Ctx_stale_id_discarded_counterexample :
    ¬ (∀ (res : Option (Session Nat) × Option Error) (g1 : Globals Nat) (w1 : ResponseWriter),
        Ctx (freshMemory Nat 1800) ⟨[]⟩ ⟨[("go_session_id", "abc")]⟩ "xyz" ⟨0⟩ ⟨0⟩ =
          some (res, g1, w1) →
        g1.index "abc" = none ∧ ∀ k s, g1.index k = some s → s.ID = k) := by
  intro h
  have hrun := Ctx_memory_stale (freshMemory Nat 1800) ⟨[]⟩ ⟨[("go_session_id", "abc")]⟩ "xyz"
    ⟨0⟩ ⟨0⟩ (sampleConfig 1800 .Memory) newMemoryStore "abc" rfl rfl rfl (by decide) (by decide)
    (by decide) rfl
  have habc := (h _ _ _ hrun).1
  have hq : (QueryUnescape "abc").1 = "abc" := by decide
  simp [Globals.index, MemoryStore.assign, hq] at habc

/-- C1 (failing input). A first request without cookie mints `s@1`, registers
the session under `s@1` and sends the cookie value `s%401`.  On the next
request, which presents `s%401`, the identifier `s@1` is a key of the store
index, yet `Ctx` returns the entry under the raw cookie value `s%401`, the
`nil` pointer, instead of the session registered under `s@1`. -/
theorem Ctx_known_id_returns_raw_value_entry :
    Ctx (freshMemory Nat 1800) ⟨[]⟩ ⟨[]⟩ "s@1" ⟨0⟩ ⟨0⟩ =
      some ((some (.memory (some (newMSessionItem "s@1" 1800 ⟨0⟩))), none), servedOnce,
        ⟨[mintedCookie (sampleConfig 1800 .Memory) "s@1" ⟨0⟩]⟩) ∧
    (mintedCookie (sampleConfig 1800 .Memory) "s@1" ⟨0⟩).Value = "s%401" ∧
    QueryUnescape "s%401" = ("s@1", none) ∧
    servedOnce.index "s@1" = some (newMSessionItem "s@1" 1800 ⟨0⟩) ∧
    servedOnce.index "s%401" = none ∧
    (Ctx servedOnce ⟨[]⟩ ⟨[("go_session_id", "s%401")]⟩ "other" ⟨1⟩ ⟨1⟩).map (fun r => r.1) =
      some (some (.memory none), none) := by
  refine ⟨?_, by decide, by decide, by decide, by decide, by decide⟩
  exact Ctx_memory_absent (freshMemory Nat 1800) ⟨[]⟩ ⟨[]⟩ "s@1" ⟨0⟩ ⟨0⟩
    (sampleConfig 1800 .Memory) newMemoryStore rfl rfl rfl (Or.inl rfl)

/-- C10 (failing input). With a max-age of 1800 seconds and both clock
readings at instant 0, `newCookie` creates a session that expires 1800 seconds
after the reading, and writes a cookie with `MaxAge = 1800` whose `Expires` is
1800 nanoseconds after the reading. -/
theorem newCookie_cookie_expires_in_nanoseconds :
    (newCookie (freshMemory Nat 1800) ⟨[]⟩ none "xyz" ⟨0⟩ ⟨0⟩).map (fun r => (r.1, r.2.2)) =
      some (.memory (some { ID := "xyz", Expires := ⟨1800 * 1000000000⟩, Data := [] }),
        ⟨[{ Name := "go_session_id", Value := "xyz", Path := "/", Domain := "",
            Expires := ⟨1800⟩, MaxAge := 1800, Secure := false, HttpOnly := true }]⟩) := by
  decide

end Coordinator

end GoSession
